import Mathlib

/-!
Verification of the folder encrypt/decrypt batch orchestrator
(`src/features/feature-folder-encrypt/FeatureFolderEncrypt.ts`).

The embedding models the vault, the session password cache and the set of
open editor views as one explicit state record.  Every operation of the
feature returns the updated state together with an ordered trace of the
externally observable effects it performed (reads, view detaches, renames,
content writes, cache writes, view reopens, notices, cache lookups and
prompt openings), so that ordering claims and "this collaborator was never
invoked" claims become statements about the trace.

External collaborators (the crypto primitive, the envelope codec, the
interactive password modal and the storage fault behaviour) are injected as
parameters, mirroring the interfaces the source calls.
-/

namespace FolderEncrypt

/-- A password together with its hint (`PasswordAndHint` in the source). -/
structure PasswordAndHint where
  password : String
  hint : String
deriving DecidableEq, Repr

/-- A stored file: path, extension and current content.  Mirrors a `TFile`
together with the vault content it resolves to; the extension field mirrors
`TFile.extension`, derived from the path suffix. -/
structure VFile where
  path : String
  extension : String
  content : String
deriving DecidableEq, Repr

/-- A directory (`TFolder`): its path and display name. -/
structure Folder where
  path : String
  name : String
deriving DecidableEq, Repr

/-- The identity of a file as captured when the batch's file list is built:
path and extension at that moment (the loop never uses a stale content
snapshot; content is always re-read from the current state). -/
structure FileRef where
  path : String
  extension : String
deriving DecidableEq, Repr

/-- Modelled from the spec: the session trust Level of
`SessionPasswordService` (code not under src/); the spec lists
`{None, PerFile, ExternalFile, ...}` and only `ExternalFile` changes the
resolver's behaviour. -/
inductive Level where
  | levelNone
  | levelPerFile
  | levelExternalFile
deriving DecidableEq, Repr

/-- An externally observable effect, in the order it was performed. -/
inductive Event where
  | readFile (path : String)
  | detachView (path : String)
  | renameFile (oldPath newPath : String)
  | modifyFile (path : String) (content : String)
  | cachePut (path : String)
  | reopenFile (path : String)
  | notice (msg : String)
  | cacheGet (path : String)
  | promptOpened (title : String) (isEncrypting confirm : Bool) (seed : PasswordAndHint)
deriving DecidableEq, Repr

/-- The mutable state the feature acts on: the vault's files, the session
password cache (most recent entry first) and the paths currently open in
editor views. -/
structure VaultState where
  files : List VFile
  cache : List (String × PasswordAndHint)
  openViews : List String
deriving DecidableEq, Repr

/-- Modelled from the spec: `SessionPasswordService` lookup (code not under
src/) — the cache maps a path to the `PasswordAndHint` remembered for it,
with the empty sentinel (`password == ""`) when nothing is known. -/
def cacheLookup (cache : List (String × PasswordAndHint)) (path : String) :
    PasswordAndHint :=
  match cache.find? (fun e => e.1 = path) with
  | some e => e.2
  | none => ⟨"", ""⟩

/-- Reading a file from the vault: the content of the first file at the
given path, or failure when no such file exists. -/
def readFile (files : List VFile) (path : String) : Option String :=
  (files.find? (fun f => f.path = path)).map (fun f => f.content)

/-- Modelled from the spec: `Utils.getFilePathWithNewExtension` (code not
under src/) replaces the final extension segment of the path, preserving
directory and base name. -/
def getFilePathWithNewExtension (path ext newExt : String) : String :=
  String.mk (path.data.take (path.data.length - (ext.data.length + 1))) ++ "." ++ newExt

/-- Modelled from the spec: `ENCRYPTED_FILE_EXTENSIONS` from Constants
(code not under src/) — the configured set of recognized encrypted-file
extensions. -/
def ENCRYPTED_FILE_EXTENSIONS : List String := ["mdenc", "encrypted"]

/-- Modelled from the spec: `ENCRYPTED_FILE_EXTENSION_DEFAULT` from
Constants (code not under src/) — the extension given to newly encrypted
files; a member of `ENCRYPTED_FILE_EXTENSIONS`. -/
def ENCRYPTED_FILE_EXTENSION_DEFAULT : String := "mdenc"

/-- The injected collaborators and fault behaviour of one batch run:
the session level, the session-cache lookup the resolver consults, the
outcome the user would give the password modal (`none` = cancel), the
crypto and codec collaborators, and which storage operations fail. -/
structure BatchEnv where
  level : Level
  lookup : String → PasswordAndHint
  promptOutcome : Option PasswordAndHint
  encryptText : String → String → String → Option String
  decodeEnv : String → Option String
  decryptText : String → String → Option String
  renameFails : String → Bool
  modifyFails : String → Bool

/-- JS `String.prototype.startsWith`: a character-level prefix test. -/
def strStartsWith (s pre : String) : Bool :=
  List.isPrefixOf pre.data s.data

/-- Source `getFilesRecursively`: every vault file whose path starts with
`folder.path ++ "/"`, with no required prefix when the folder path is
empty. -/
def getFilesRecursively (allFiles : List VFile) (folder : Folder) : List VFile :=
  let pre := if folder.path.length > 0 then folder.path ++ "/" else ""
  allFiles.filter (fun f => strStartsWith f.path pre)

/-- Source `getMarkdownFiles`: the files under the folder with extension "md". -/
def getMarkdownFiles (allFiles : List VFile) (folder : Folder) : List VFile :=
  (getFilesRecursively allFiles folder).filter (fun f => f.extension = "md")

/-- Source `getEncryptedFiles`: the files under the folder whose extension is a
recognized encrypted extension. -/
def getEncryptedFiles (allFiles : List VFile) (folder : Folder) : List VFile :=
  (getFilesRecursively allFiles folder).filter
    (fun f => ENCRYPTED_FILE_EXTENSIONS.contains f.extension)

/-- Source `promptPasswordForFolder`: at level ExternalFile return the cache
lookup directly; otherwise return a non-empty cached password as-is, and
only prompt (seeded with the cached value, confirming iff encrypting) when
the cached password is empty.  A cancelled modal throws, caught as `none`. -/
def promptPasswordForFolder (level : Level) (lookup : String → PasswordAndHint)
    (promptOutcome : Option PasswordAndHint)
    (title : String) (isEncrypting : Bool) (defaultPath : String) :
    Option PasswordAndHint × List Event :=
  if level = Level.levelExternalFile then
    (some (lookup defaultPath), [Event.cacheGet defaultPath])
  else
    let pwh := lookup defaultPath
    if pwh.password = "" then
      match promptOutcome with
      | some entered =>
          (some entered,
           [Event.cacheGet defaultPath,
            Event.promptOpened title isEncrypting isEncrypting pwh])
      | none =>
          (none,
           [Event.cacheGet defaultPath,
            Event.promptOpened title isEncrypting isEncrypting pwh])
    else
      (some pwh, [Event.cacheGet defaultPath])

/-- Source `closeUpdateRememberPasswordThenReopen`: detach every open view on the
file, then rename, write the new content, and remember the password against
the file's (new) path; reopen the file on every exit path whenever a detach
occurred.  The returned Bool is true iff no storage operation threw. -/
def closeUpdateRememberPasswordThenReopen (env : BatchEnv) (s : VaultState)
    (filePath fileExt newFileExtension content : String) (pw : PasswordAndHint) :
    VaultState × List Event × Bool :=
  let didDetach := s.openViews.contains filePath
  let detachEvs := (s.openViews.filter (fun p => p = filePath)).map Event.detachView
  let s1 : VaultState := { s with openViews := s.openViews.filter (fun p => ¬ (p = filePath)) }
  let newFilepath := getFilePathWithNewExtension filePath fileExt newFileExtension
  if env.renameFails filePath then
    if didDetach then
      ({ s1 with openViews := s1.openViews ++ [filePath] },
       detachEvs ++ [Event.reopenFile filePath], false)
    else
      (s1, detachEvs, false)
  else
    let s2 : VaultState :=
      { s1 with files := s1.files.map (fun f =>
          if f.path = filePath then { f with path := newFilepath, extension := newFileExtension } else f) }
    if env.modifyFails newFilepath then
      if didDetach then
        ({ s2 with openViews := s2.openViews ++ [newFilepath] },
         detachEvs ++ [Event.renameFile filePath newFilepath,
           Event.reopenFile newFilepath], false)
      else
        (s2, detachEvs ++ [Event.renameFile filePath newFilepath], false)
    else
      let s3 : VaultState :=
        { s2 with
          files := s2.files.map (fun f =>
            if f.path = newFilepath then { f with content := content } else f),
          cache := (newFilepath, pw) :: s2.cache }
      if didDetach then
        ({ s3 with openViews := s3.openViews ++ [newFilepath] },
         detachEvs ++ [Event.renameFile filePath newFilepath,
           Event.modifyFile newFilepath content, Event.cachePut newFilepath,
           Event.reopenFile newFilepath], true)
      else
        (s3, detachEvs ++ [Event.renameFile filePath newFilepath,
          Event.modifyFile newFilepath content, Event.cachePut newFilepath], true)

/-- One encrypting transform (`encryptFile` followed by
`closeUpdateRememberPasswordThenReopen`), returning success or caught
failure. -/
def encryptOne (env : BatchEnv) (pwh : PasswordAndHint) (fr : FileRef)
    (s : VaultState) : VaultState × List Event × Bool :=
  match readFile s.files fr.path with
  | none => (s, [Event.readFile fr.path], false)
  | some c =>
    match env.encryptText pwh.password pwh.hint c with
    | none => (s, [Event.readFile fr.path], false)
    | some encText =>
      let r := closeUpdateRememberPasswordThenReopen env s fr.path fr.extension
        ENCRYPTED_FILE_EXTENSION_DEFAULT encText pwh
      (r.1, Event.readFile fr.path :: r.2.1, r.2.2)

/-- One decrypting transform (`decryptFile` followed by
`closeUpdateRememberPasswordThenReopen`); a codec decode failure or a null
decryption result is a caught failure before any storage mutation. -/
def decryptOne (env : BatchEnv) (pwh : PasswordAndHint) (fr : FileRef)
    (s : VaultState) : VaultState × List Event × Bool :=
  match readFile s.files fr.path with
  | none => (s, [Event.readFile fr.path], false)
  | some c =>
    match env.decodeEnv c with
    | none => (s, [Event.readFile fr.path], false)
    | some envl =>
      match env.decryptText envl pwh.password with
      | none => (s, [Event.readFile fr.path], false)
      | some plain =>
        let r := closeUpdateRememberPasswordThenReopen env s fr.path fr.extension
          "md" plain pwh
        (r.1, Event.readFile fr.path :: r.2.1, r.2.2)

/-- The encrypting batch loop: each per-file failure is caught, counted in
`fail`, and iteration continues; successes are counted in `ok`. -/
def encryptLoop (env : BatchEnv) (pwh : PasswordAndHint) :
    List FileRef → VaultState → VaultState × List Event × Nat × Nat
  | [], s => (s, [], 0, 0)
  | fr :: rest, s =>
    let r1 := encryptOne env pwh fr s
    let r2 := encryptLoop env pwh rest r1.1
    (r2.1, r1.2.1 ++ r2.2.1,
     (if r1.2.2 then r2.2.2.1 + 1 else r2.2.2.1),
     (if r1.2.2 then r2.2.2.2 else r2.2.2.2 + 1))

/-- The decrypting batch loop, with the same catch-and-count discipline. -/
def decryptLoop (env : BatchEnv) (pwh : PasswordAndHint) :
    List FileRef → VaultState → VaultState × List Event × Nat × Nat
  | [], s => (s, [], 0, 0)
  | fr :: rest, s =>
    let r1 := decryptOne env pwh fr s
    let r2 := decryptLoop env pwh rest r1.1
    (r2.1, r1.2.1 ++ r2.2.1,
     (if r1.2.2 then r2.2.2.1 + 1 else r2.2.2.1),
     (if r1.2.2 then r2.2.2.2 else r2.2.2.2 + 1))

/-- The identity snapshot the loop iterates over. -/
def fileRefOf (f : VFile) : FileRef := ⟨f.path, f.extension⟩

/-- Source `processEncryptFolder`: select the markdown files under the folder;
when empty report "nothing to do"; otherwise resolve one password (silently
aborting on cancellation) and run the loop, ending with the single summary
notice. -/
def processEncryptFolder (env : BatchEnv) (folder : Folder) (s : VaultState) :
    VaultState × List Event :=
  let files := getMarkdownFiles s.files folder
  if files.length = 0 then
    (s, [Event.notice "No markdown files to encrypt in this folder."])
  else
    let pr := promptPasswordForFolder env.level env.lookup env.promptOutcome
      ("Encrypt Folder \"" ++ folder.name ++ "\"") true folder.path
    match pr.1 with
    | none => (s, pr.2)
    | some pwh =>
      let lr := encryptLoop env pwh (files.map fileRefOf) s
      (lr.1, pr.2 ++ lr.2.1 ++
        [Event.notice ("Folder encrypted: " ++ toString lr.2.2.1 ++ " ok, " ++
          toString lr.2.2.2 ++ " failed")])

/-- Source `processDecryptFolder`: the decrypting counterpart. -/
def processDecryptFolder (env : BatchEnv) (folder : Folder) (s : VaultState) :
    VaultState × List Event :=
  let files := getEncryptedFiles s.files folder
  if files.length = 0 then
    (s, [Event.notice "No encrypted files to decrypt in this folder."])
  else
    let pr := promptPasswordForFolder env.level env.lookup env.promptOutcome
      ("Decrypt Folder \"" ++ folder.name ++ "\"") false folder.path
    match pr.1 with
    | none => (s, pr.2)
    | some pwh =>
      let lr := decryptLoop env pwh (files.map fileRefOf) s
      (lr.1, pr.2 ++ lr.2.1 ++
        [Event.notice ("Folder decrypted: " ++ toString lr.2.2.1 ++ " ok, " ++
          toString lr.2.2.2 ++ " failed")])

/-- Recognizers for the event categories the claims talk about. -/
def isNoticeEvent : Event → Bool
  | Event.notice _ => true
  | _ => false

def isReadEvent : Event → Bool
  | Event.readFile _ => true
  | _ => false

def isDetachEvent : Event → Bool
  | Event.detachView _ => true
  | _ => false

def isRenameEvent : Event → Bool
  | Event.renameFile _ _ => true
  | _ => false

def isModifyEvent : Event → Bool
  | Event.modifyFile _ _ => true
  | _ => false

def isCachePutEvent : Event → Bool
  | Event.cachePut _ => true
  | _ => false

def isReopenEvent : Event → Bool
  | Event.reopenFile _ => true
  | _ => false

def isCacheGetEvent : Event → Bool
  | Event.cacheGet _ => true
  | _ => false

def isPromptEvent : Event → Bool
  | Event.promptOpened _ _ _ _ => true
  | _ => false

/-- A storage mutation: a rename or a content write. -/
def isStorageMutation (e : Event) : Bool := isRenameEvent e || isModifyEvent e

/-- Every event satisfying `p` occurs strictly before every event
satisfying `q` in the trace. -/
def firstBefore (p q : Event → Bool) (ev : List Event) : Prop :=
  ∀ i j (hi : i < ev.length) (hj : j < ev.length),
    p (ev.get ⟨i, hi⟩) = true → q (ev.get ⟨j, hj⟩) = true → i < j

/-- A concrete fault-free environment used by the witness instances. -/
def envW : BatchEnv :=
  { level := Level.levelNone
    lookup := fun _ => ⟨"", ""⟩
    promptOutcome := some ⟨"pw", "h"⟩
    encryptText := fun _ _ c => some ("ENC" ++ c)
    decodeEnv := fun c => if c = "ENChi" then some "hi" else none
    decryptText := fun envl _ => if envl = "hi" then some "hi" else none
    renameFails := fun _ => false
    modifyFails := fun _ => false }

/-- The environment of `envW` with a cancelled password prompt. -/
def envCancelW : BatchEnv := { envW with promptOutcome := none }

/-- The environment of `envW` whose content write fails at one path. -/
def envModFailW : BatchEnv := { envW with modifyFails := fun p => p = "dir/b.mdenc" }

/-- A concrete cache lookup returning a non-empty password. -/
def lookupPwW : String → PasswordAndHint := fun _ => ⟨"pw", "h"⟩

/-- The concrete directory the witness vault lives under. -/
def folderW : Folder := ⟨"dir", "dir"⟩

/-- A concrete two-markdown-file vault with one file open in a view. -/
def sW : VaultState :=
  { files := [⟨"dir/a.md", "md", "hello"⟩, ⟨"dir/b.md", "md", "x"⟩]
    cache := []
    openViews := ["dir/b.md"] }

/-- A concrete vault of encrypted files, one of them with corrupt content. -/
def sDecW : VaultState :=
  { files := [⟨"dir/a.mdenc", "mdenc", "ENChi"⟩, ⟨"dir/bad.mdenc", "mdenc", "junk"⟩]
    cache := []
    openViews := [] }

theorem string_length_eq_zero_iff (s : String) : s.length = 0 ↔ s = "" := by
  constructor
  · intro h
    apply String.ext
    exact List.length_eq_zero.mp h
  · intro h
    subst h
    rfl

theorem firstBefore_of_split (p q : Event → Bool) (l1 l2 : List Event)
    (h1 : ∀ e ∈ l1, q e = false) (h2 : ∀ e ∈ l2, p e = false) :
    firstBefore p q (l1 ++ l2) := by
  intro i j hi hj hp hq
  have hlen : (l1 ++ l2).length = l1.length + l2.length := List.length_append l1 l2
  by_cases hil : i < l1.length
  · by_cases hjl : j < l1.length
    · exfalso
      have hg : (l1 ++ l2).get ⟨j, hj⟩ = l1.get ⟨j, hjl⟩ := List.getElem_append_left ..
      rw [hg] at hq
      have := h1 _ (l1.get_mem j hjl)
      rw [this] at hq
      exact Bool.false_ne_true hq
    · omega
  · exfalso
    have hle : l1.length ≤ i := by omega
    have hg : (l1 ++ l2).get ⟨i, hi⟩ = l2.get ⟨i - l1.length, by omega⟩ :=
      List.getElem_append_right hle
    rw [hg] at hp
    have := h2 _ (l2.get_mem (i - l1.length) (by omega))
    rw [this] at hp
    exact Bool.false_ne_true hp

theorem filesRecursively_mem (allFiles : List VFile) (folder : Folder) (g : VFile) :
    g ∈ getFilesRecursively allFiles folder ↔
      g ∈ allFiles ∧ (folder.path = "" ∨ (folder.path ++ "/").data <+: g.path.data) := by
  unfold getFilesRecursively
  simp only [List.mem_filter]
  constructor
  · rintro ⟨hmem, hpre⟩
    refine ⟨hmem, ?_⟩
    by_cases hlen : folder.path.length > 0
    · right
      rw [if_pos hlen] at hpre
      exact List.isPrefixOf_iff_prefix.mp (by simpa [strStartsWith] using hpre)
    · left
      exact (string_length_eq_zero_iff folder.path).mp (by omega)
  · rintro ⟨hmem, hpre⟩
    refine ⟨hmem, ?_⟩
    by_cases hlen : folder.path.length > 0
    · rw [if_pos hlen]
      rcases hpre with hroot | hp
      · exfalso
        rw [hroot] at hlen
        simp [String.length] at hlen
      · simpa [strStartsWith] using List.isPrefixOf_iff_prefix.mpr hp
    · rw [if_neg hlen]
      simp [strStartsWith, List.isPrefixOf]

/-- Claim C9: a file from the storage listing is selected for the batch iff
its path starts with the directory's path followed by "/" (no required
prefix for the root directory, whose path is empty) and its extension
matches the direction's eligibility predicate: exactly "md" when
encrypting, a member of the recognized encrypted-extension set when
decrypting. -/
theorem C9_eligibility (allFiles : List VFile) (folder : Folder) (f : VFile) :
    (f ∈ getMarkdownFiles allFiles folder ↔
      f ∈ allFiles ∧ (folder.path = "" ∨ (folder.path ++ "/").data <+: f.path.data) ∧
        f.extension = "md") ∧
    (f ∈ getEncryptedFiles allFiles folder ↔
      f ∈ allFiles ∧ (folder.path = "" ∨ (folder.path ++ "/").data <+: f.path.data) ∧
        f.extension ∈ ENCRYPTED_FILE_EXTENSIONS) := by
  constructor
  · unfold getMarkdownFiles
    simp only [List.mem_filter, filesRecursively_mem, decide_eq_true_eq]
    tauto
  · unfold getEncryptedFiles
    simp only [List.mem_filter, filesRecursively_mem, List.elem_iff]
    tauto

/-- Claim C3: password resolution returns the cache's lookup directly (no
prompt) at level ExternalFile; otherwise returns a non-empty cached
password as-is without prompting; otherwise opens a prompt seeded with the
cached value, requesting confirmation iff the intent is encrypting, and a
cancelled prompt yields the cancelled (`none`) outcome. -/
theorem C3_resolver (level : Level) (lookup : String → PasswordAndHint)
    (promptOutcome : Option PasswordAndHint) (title : String)
    (isEncrypting : Bool) (defaultPath : String) :
    (level = Level.levelExternalFile →
      promptPasswordForFolder level lookup promptOutcome title isEncrypting defaultPath =
        (some (lookup defaultPath), [Event.cacheGet defaultPath])) ∧
    (level ≠ Level.levelExternalFile → (lookup defaultPath).password ≠ "" →
      promptPasswordForFolder level lookup promptOutcome title isEncrypting defaultPath =
        (some (lookup defaultPath), [Event.cacheGet defaultPath])) ∧
    (level ≠ Level.levelExternalFile → (lookup defaultPath).password = "" →
      promptPasswordForFolder level lookup promptOutcome title isEncrypting defaultPath =
        (promptOutcome,
         [Event.cacheGet defaultPath,
          Event.promptOpened title isEncrypting isEncrypting (lookup defaultPath)])) := by
  refine ⟨fun hl => ?_, fun hl hne => ?_, fun hl he => ?_⟩
  · simp [promptPasswordForFolder, hl]
  · simp [promptPasswordForFolder, hl, hne]
  · cases promptOutcome <;> simp [promptPasswordForFolder, hl, he]

/-- Claim C7: on a directory with zero eligible files the batch reports the
"nothing to do" notice and returns with the state untouched and no other
effect: in particular no cache lookup, no prompt and no file operation
appears in the trace. -/
theorem C7_empty_folder (env : BatchEnv) (folder : Folder) (s : VaultState) :
    (getMarkdownFiles s.files folder = [] →
      processEncryptFolder env folder s =
        (s, [Event.notice "No markdown files to encrypt in this folder."])) ∧
    (getEncryptedFiles s.files folder = [] →
      processDecryptFolder env folder s =
        (s, [Event.notice "No encrypted files to decrypt in this folder."])) := by
  constructor
  · intro h
    simp [processEncryptFolder, h]
  · intro h
    simp [processDecryptFolder, h]

theorem firstBefore_of_no_q (p q : Event → Bool) (ev : List Event)
    (h : ∀ e ∈ ev, q e = false) : firstBefore p q ev := by
  intro i j hi hj _ hq
  rw [h _ (ev.get_mem j hj)] at hq
  exact absurd hq Bool.false_ne_true

/-- Claim C2: cancelling the password prompt over a non-empty eligible set
aborts the batch at once: the vault, the session cache and the open views
are byte-for-byte the input state, and the trace holds no notice, no file
read, no detach, no rename, no write, no cache write and no reopen. -/
theorem C2_cancel_aborts (env : BatchEnv) (folder : Folder) (s : VaultState)
    (hlevel : env.level ≠ Level.levelExternalFile)
    (hempty : (env.lookup folder.path).password = "")
    (hcancel : env.promptOutcome = none) :
    (getMarkdownFiles s.files folder ≠ [] →
      (processEncryptFolder env folder s).1 = s ∧
      (processEncryptFolder env folder s).2.filter
        (fun e => isNoticeEvent e || isReadEvent e || isDetachEvent e ||
          isRenameEvent e || isModifyEvent e || isCachePutEvent e ||
          isReopenEvent e) = []) ∧
    (getEncryptedFiles s.files folder ≠ [] →
      (processDecryptFolder env folder s).1 = s ∧
      (processDecryptFolder env folder s).2.filter
        (fun e => isNoticeEvent e || isReadEvent e || isDetachEvent e ||
          isRenameEvent e || isModifyEvent e || isCachePutEvent e ||
          isReopenEvent e) = []) := by
  constructor
  · intro hne
    have hlen : ¬ ((getMarkdownFiles s.files folder).length = 0) := by
      intro h
      exact hne (List.length_eq_zero.mp h)
    constructor <;>
      simp [processEncryptFolder, hlen, promptPasswordForFolder, hlevel, hempty,
        hcancel, isNoticeEvent, isReadEvent, isDetachEvent, isRenameEvent,
        isModifyEvent, isCachePutEvent, isReopenEvent]
  · intro hne
    have hlen : ¬ ((getEncryptedFiles s.files folder).length = 0) := by
      intro h
      exact hne (List.length_eq_zero.mp h)
    constructor <;>
      simp [processDecryptFolder, hlen, promptPasswordForFolder, hlevel, hempty,
        hcancel, isNoticeEvent, isReadEvent, isDetachEvent, isRenameEvent,
        isModifyEvent, isCachePutEvent, isReopenEvent]

/-- Claim C4: the per-file transform reopens the file exactly once whenever
some view on it was open (hence detached), on success and on every failure
path alike, and performs no reopen when no view on it was open. -/
theorem C4_reopen_iff_detached (env : BatchEnv) (s : VaultState)
    (filePath fileExt newExt content : String) (pw : PasswordAndHint) :
    (closeUpdateRememberPasswordThenReopen env s filePath fileExt newExt content pw).2.1.countP
        isReopenEvent =
      (if s.openViews.contains filePath then 1 else 0) := by
  have hdet : (((s.openViews.filter (fun p => p = filePath)).map Event.detachView).countP
      isReopenEvent) = 0 := by
    apply List.countP_eq_zero.mpr
    intro e he
    obtain ⟨p, _, rfl⟩ := List.mem_map.mp he
    simp [isReopenEvent]
  unfold closeUpdateRememberPasswordThenReopen
  cases h1 : env.renameFails filePath <;>
    cases h2 : env.modifyFails (getFilePathWithNewExtension filePath fileExt newExt) <;>
      cases h3 : s.openViews.contains filePath <;>
        simp [h1, h2, h3, List.countP_append, List.countP_cons, hdet, isReopenEvent]

theorem detachEvs_no_mutation (views : List String) (filePath : String) :
    ∀ e ∈ (views.filter (fun p => p = filePath)).map Event.detachView,
      isStorageMutation e = false := by
  intro e he
  obtain ⟨p, _, rfl⟩ := List.mem_map.mp he
  rfl

theorem detachEvs_no_modify (views : List String) (filePath : String) :
    ∀ e ∈ (views.filter (fun p => p = filePath)).map Event.detachView,
      isModifyEvent e = false := by
  intro e he
  obtain ⟨p, _, rfl⟩ := List.mem_map.mp he
  rfl

/-- Claim C5: in every per-file transform the storage mutations are
ordered: every detach of an open view happens strictly before any storage
mutation (so the file is never renamed or overwritten while a view on it
remains attached), and the rename happens strictly before the content
write. -/
theorem C5_mutation_ordering (env : BatchEnv) (s : VaultState)
    (filePath fileExt newExt content : String) (pw : PasswordAndHint) :
    firstBefore isDetachEvent isStorageMutation
      (closeUpdateRememberPasswordThenReopen env s filePath fileExt newExt content pw).2.1 ∧
    firstBefore isRenameEvent isModifyEvent
      (closeUpdateRememberPasswordThenReopen env s filePath fileExt newExt content pw).2.1 := by
  unfold closeUpdateRememberPasswordThenReopen
  cases h1 : env.renameFails filePath <;>
    cases h2 : env.modifyFails (getFilePathWithNewExtension filePath fileExt newExt) <;>
      cases h3 : s.openViews.contains filePath <;>
        simp only [h1, h2, h3, Bool.false_eq_true, if_false, if_true, ite_true, ite_false] <;>
          refine ⟨?_, ?_⟩
  all_goals first
  | · -- the whole trace is detach events
      apply firstBefore_of_no_q
      intro e he
      obtain ⟨p, _, rfl⟩ := List.mem_map.mp he
      rfl
  | · -- no storage mutation at all in this branch (rename threw)
      apply firstBefore_of_no_q
      intro e he
      rcases List.mem_append.mp he with h | h
      · exact detachEvs_no_mutation _ _ e h
      · fin_cases h <;> rfl
  | · -- no modify event in this branch
      apply firstBefore_of_no_q
      intro e he
      rcases List.mem_append.mp he with h | h
      · exact detachEvs_no_modify _ _ e h
      · fin_cases h <;> rfl
  | · -- detach events all precede the mutation events
      apply firstBefore_of_split
      · exact detachEvs_no_mutation _ _
      · intro e he
        fin_cases he <;> rfl
  | · -- the rename precedes the modify
      rw [List.append_cons]
      apply firstBefore_of_split
      · intro e he
        rcases List.mem_append.mp he with h | h
        · exact detachEvs_no_modify _ _ e h
        · fin_cases h <;> rfl
      · intro e he
        fin_cases he <;> rfl

theorem getFilePathWithNewExtension_base (base ext newExt : String) :
    getFilePathWithNewExtension (base ++ "." ++ ext) ext newExt =
      base ++ "." ++ newExt := by
  have hd : (base ++ "." ++ ext).data = base.data ++ '.' :: ext.data := by
    rw [String.data_append, String.data_append]
    simp
  simp only [getFilePathWithNewExtension, hd]
  have hlen : (base.data ++ '.' :: ext.data).length - (ext.data.length + 1) =
      base.data.length := by
    simp [List.length_append]
  rw [hlen]
  have ht : (base.data ++ '.' :: ext.data).take base.data.length = base.data :=
    List.take_left base.data ('.' :: ext.data)
  rw [ht]

/-- Claim C10: when the rename succeeds and the content write then fails,
the transform reports failure (the error propagates to the loop), leaves
the session cache untouched (no cache write happens), leaves the file
renamed-but-stale, and still runs the reopen cleanup last whenever a view
had been detached. -/
theorem C10_write_failure (env : BatchEnv) (s : VaultState)
    (filePath fileExt newExt content : String) (pw : PasswordAndHint)
    (hren : env.renameFails filePath = false)
    (hmod : env.modifyFails (getFilePathWithNewExtension filePath fileExt newExt) = true) :
    (closeUpdateRememberPasswordThenReopen env s filePath fileExt newExt content pw).2.2 = false ∧
    (closeUpdateRememberPasswordThenReopen env s filePath fileExt newExt content pw).1.cache =
      s.cache ∧
    (∀ p, Event.cachePut p ∉
      (closeUpdateRememberPasswordThenReopen env s filePath fileExt newExt content pw).2.1) ∧
    (closeUpdateRememberPasswordThenReopen env s filePath fileExt newExt content pw).1.files =
      s.files.map (fun f =>
        if f.path = filePath then
          { f with path := getFilePathWithNewExtension filePath fileExt newExt,
                   extension := newExt }
        else f) ∧
    (s.openViews.contains filePath = true →
      (closeUpdateRememberPasswordThenReopen env s filePath fileExt newExt content pw).2.1.getLast? =
        some (Event.reopenFile (getFilePathWithNewExtension filePath fileExt newExt))) := by
  refine ⟨?_, ?_, ?_, ?_, ?_⟩
  · by_cases h3 : filePath ∈ s.openViews <;>
      simp [closeUpdateRememberPasswordThenReopen, hren, hmod, h3]
  · by_cases h3 : filePath ∈ s.openViews <;>
      simp [closeUpdateRememberPasswordThenReopen, hren, hmod, h3]
  · intro p hp
    by_cases h3 : filePath ∈ s.openViews <;>
      simp [closeUpdateRememberPasswordThenReopen, hren, hmod, h3] at hp
  · by_cases h3 : filePath ∈ s.openViews <;>
      simp [closeUpdateRememberPasswordThenReopen, hren, hmod, h3]
  · intro h
    simp only [closeUpdateRememberPasswordThenReopen, hren, hmod, h, Bool.false_eq_true,
      if_false, if_true, ite_true, ite_false, eq_self_iff_true]
    rw [List.append_cons]
    exact List.getLast?_concat _

theorem closeUpdate_success (env : BatchEnv) (s : VaultState)
    (filePath fileExt newExt content : String) (pw : PasswordAndHint)
    (hren : env.renameFails filePath = false)
    (hmod : env.modifyFails (getFilePathWithNewExtension filePath fileExt newExt) = false) :
    (closeUpdateRememberPasswordThenReopen env s filePath fileExt newExt content pw).2.2 = true ∧
    (closeUpdateRememberPasswordThenReopen env s filePath fileExt newExt content pw).1.cache =
      (getFilePathWithNewExtension filePath fileExt newExt, pw) :: s.cache ∧
    (∀ f0 ∈ s.files, f0.path = filePath →
      (⟨getFilePathWithNewExtension filePath fileExt newExt, newExt, content⟩ : VFile) ∈
        (closeUpdateRememberPasswordThenReopen env s filePath fileExt newExt content pw).1.files) := by
  refine ⟨?_, ?_, ?_⟩
  · by_cases h3 : filePath ∈ s.openViews <;>
      simp [closeUpdateRememberPasswordThenReopen, hren, hmod, h3]
  · by_cases h3 : filePath ∈ s.openViews <;>
      simp [closeUpdateRememberPasswordThenReopen, hren, hmod, h3]
  · intro f0 hf0 hpath
    have hfiles : (closeUpdateRememberPasswordThenReopen env s filePath fileExt newExt content pw).1.files =
        (s.files.map (fun f => if f.path = filePath then
            { f with path := getFilePathWithNewExtension filePath fileExt newExt,
                     extension := newExt } else f)).map
          (fun f => if f.path = getFilePathWithNewExtension filePath fileExt newExt then
            { f with content := content } else f) := by
      by_cases h3 : filePath ∈ s.openViews <;>
        simp [closeUpdateRememberPasswordThenReopen, hren, hmod, h3]
    rw [hfiles]
    exact List.mem_map.mpr ⟨_, List.mem_map.mpr ⟨f0, hf0, rfl⟩, by simp [hpath]⟩

/-- Claim C6: when a per-file transform fully succeeds the file ends up at
the same directory and base name with the new extension (the default
encrypted extension when encrypting, "md" when decrypting), its content is
the serialized envelope resp. the decrypted plaintext, and the session
cache afterwards returns the batch password for the file's new path. -/
theorem C6_success_state :
    (∀ (env : BatchEnv) (pwh : PasswordAndHint) (fr : FileRef) (s : VaultState)
        (base c encText : String),
      fr.path = base ++ "." ++ fr.extension →
      readFile s.files fr.path = some c →
      env.encryptText pwh.password pwh.hint c = some encText →
      env.renameFails fr.path = false →
      env.modifyFails (base ++ "." ++ ENCRYPTED_FILE_EXTENSION_DEFAULT) = false →
      (encryptOne env pwh fr s).2.2 = true ∧
      (⟨base ++ "." ++ ENCRYPTED_FILE_EXTENSION_DEFAULT, ENCRYPTED_FILE_EXTENSION_DEFAULT,
          encText⟩ : VFile) ∈ (encryptOne env pwh fr s).1.files ∧
      cacheLookup (encryptOne env pwh fr s).1.cache
        (base ++ "." ++ ENCRYPTED_FILE_EXTENSION_DEFAULT) = pwh) ∧
    (∀ (env : BatchEnv) (pwh : PasswordAndHint) (fr : FileRef) (s : VaultState)
        (base c envl plain : String),
      fr.path = base ++ "." ++ fr.extension →
      readFile s.files fr.path = some c →
      env.decodeEnv c = some envl →
      env.decryptText envl pwh.password = some plain →
      env.renameFails fr.path = false →
      env.modifyFails (base ++ "." ++ "md") = false →
      (decryptOne env pwh fr s).2.2 = true ∧
      (⟨base ++ "." ++ "md", "md", plain⟩ : VFile) ∈ (decryptOne env pwh fr s).1.files ∧
      cacheLookup (decryptOne env pwh fr s).1.cache (base ++ "." ++ "md") = pwh) := by
  constructor
  · intro env pwh fr s base c encText hbase hread henc hren hmod
    have hnp : getFilePathWithNewExtension fr.path fr.extension ENCRYPTED_FILE_EXTENSION_DEFAULT =
        base ++ "." ++ ENCRYPTED_FILE_EXTENSION_DEFAULT := by
      rw [hbase]
      exact getFilePathWithNewExtension_base base fr.extension _
    have hmod2 : env.modifyFails (getFilePathWithNewExtension fr.path fr.extension
        ENCRYPTED_FILE_EXTENSION_DEFAULT) = false := by
      rw [hnp]
      exact hmod
    have hcs := closeUpdate_success env s fr.path fr.extension
      ENCRYPTED_FILE_EXTENSION_DEFAULT encText pwh hren hmod2
    obtain ⟨f0, hfind, hc⟩ := Option.map_eq_some'.mp hread
    have hf0mem : f0 ∈ s.files := List.mem_of_find?_eq_some hfind
    have hf0path : f0.path = fr.path := by
      have hp := List.find?_some hfind
      simpa using hp
    have hmem := hcs.2.2 f0 hf0mem hf0path
    have hEq : encryptOne env pwh fr s =
        ((closeUpdateRememberPasswordThenReopen env s fr.path fr.extension
            ENCRYPTED_FILE_EXTENSION_DEFAULT encText pwh).1,
         Event.readFile fr.path ::
           (closeUpdateRememberPasswordThenReopen env s fr.path fr.extension
             ENCRYPTED_FILE_EXTENSION_DEFAULT encText pwh).2.1,
         (closeUpdateRememberPasswordThenReopen env s fr.path fr.extension
            ENCRYPTED_FILE_EXTENSION_DEFAULT encText pwh).2.2) := by
      simp [encryptOne, hread, henc]
    rw [hEq]
    refine ⟨hcs.1, ?_, ?_⟩
    · rw [← hnp]
      exact hmem
    · rw [← hnp, hcs.2.1]
      unfold cacheLookup
      rw [List.find?_cons_of_pos _ (by simp)]
  · intro env pwh fr s base c envl plain hbase hread hdec hplain hren hmod
    have hnp : getFilePathWithNewExtension fr.path fr.extension "md" =
        base ++ "." ++ "md" := by
      rw [hbase]
      exact getFilePathWithNewExtension_base base fr.extension _
    have hmod2 : env.modifyFails (getFilePathWithNewExtension fr.path fr.extension "md") =
        false := by
      rw [hnp]
      exact hmod
    have hcs := closeUpdate_success env s fr.path fr.extension "md" plain pwh hren hmod2
    obtain ⟨f0, hfind, hc⟩ := Option.map_eq_some'.mp hread
    have hf0mem : f0 ∈ s.files := List.mem_of_find?_eq_some hfind
    have hf0path : f0.path = fr.path := by
      have hp := List.find?_some hfind
      simpa using hp
    have hmem := hcs.2.2 f0 hf0mem hf0path
    have hEq : decryptOne env pwh fr s =
        ((closeUpdateRememberPasswordThenReopen env s fr.path fr.extension "md" plain pwh).1,
         Event.readFile fr.path ::
           (closeUpdateRememberPasswordThenReopen env s fr.path fr.extension "md" plain pwh).2.1,
         (closeUpdateRememberPasswordThenReopen env s fr.path fr.extension "md" plain pwh).2.2) := by
      simp [decryptOne, hread, hdec, hplain]
    rw [hEq]
    refine ⟨hcs.1, ?_, ?_⟩
    · rw [← hnp]
      exact hmem
    · rw [← hnp, hcs.2.1]
      unfold cacheLookup
      rw [List.find?_cons_of_pos _ (by simp)]

theorem closeUpdate_no_notice (env : BatchEnv) (s : VaultState)
    (filePath fileExt newExt content : String) (pw : PasswordAndHint) :
    ∀ e ∈ (closeUpdateRememberPasswordThenReopen env s filePath fileExt newExt content pw).2.1,
      isNoticeEvent e = false := by
  unfold closeUpdateRememberPasswordThenReopen
  cases h1 : env.renameFails filePath <;>
    cases h2 : env.modifyFails (getFilePathWithNewExtension filePath fileExt newExt) <;>
      cases h3 : s.openViews.contains filePath <;>
        simp only [h1, h2, h3, Bool.false_eq_true, if_false, if_true, ite_true,
          ite_false]
  all_goals first
  | · intro e he
      obtain ⟨p, _, rfl⟩ := List.mem_map.mp he
      rfl
  | · intro e he
      rcases List.mem_append.mp he with h | h
      · obtain ⟨p, _, rfl⟩ := List.mem_map.mp h
        rfl
      · fin_cases h <;> rfl

theorem encryptOne_no_notice (env : BatchEnv) (pwh : PasswordAndHint) (fr : FileRef)
    (s : VaultState) :
    ∀ e ∈ (encryptOne env pwh fr s).2.1, isNoticeEvent e = false := by
  intro e he
  cases hr : readFile s.files fr.path with
  | none =>
    simp [encryptOne, hr] at he
    subst he
    rfl
  | some c =>
    cases he2 : env.encryptText pwh.password pwh.hint c with
    | none =>
      simp [encryptOne, hr, he2] at he
      subst he
      rfl
    | some encText =>
      simp only [encryptOne, hr, he2] at he
      rcases List.mem_cons.mp he with rfl | h
      · rfl
      · exact closeUpdate_no_notice env s fr.path fr.extension
          ENCRYPTED_FILE_EXTENSION_DEFAULT encText pwh e h

theorem decryptOne_no_notice (env : BatchEnv) (pwh : PasswordAndHint) (fr : FileRef)
    (s : VaultState) :
    ∀ e ∈ (decryptOne env pwh fr s).2.1, isNoticeEvent e = false := by
  intro e he
  cases hr : readFile s.files fr.path with
  | none =>
    simp [decryptOne, hr] at he
    subst he
    rfl
  | some c =>
    cases he2 : env.decodeEnv c with
    | none =>
      simp [decryptOne, hr, he2] at he
      subst he
      rfl
    | some envl =>
      cases he3 : env.decryptText envl pwh.password with
      | none =>
        simp [decryptOne, hr, he2, he3] at he
        subst he
        rfl
      | some plain =>
        simp only [decryptOne, hr, he2, he3] at he
        rcases List.mem_cons.mp he with rfl | h
        · rfl
        · exact closeUpdate_no_notice env s fr.path fr.extension "md" plain pwh e h

theorem encryptLoop_no_notice (env : BatchEnv) (pwh : PasswordAndHint)
    (l : List FileRef) (s : VaultState) :
    ∀ e ∈ (encryptLoop env pwh l s).2.1, isNoticeEvent e = false := by
  induction l generalizing s with
  | nil =>
    intro e he
    simp [encryptLoop] at he
  | cons fr rest ih =>
    intro e he
    simp only [encryptLoop] at he
    rcases List.mem_append.mp he with h | h
    · exact encryptOne_no_notice env pwh fr s e h
    · exact ih _ e h

theorem decryptLoop_no_notice (env : BatchEnv) (pwh : PasswordAndHint)
    (l : List FileRef) (s : VaultState) :
    ∀ e ∈ (decryptLoop env pwh l s).2.1, isNoticeEvent e = false := by
  induction l generalizing s with
  | nil =>
    intro e he
    simp [decryptLoop] at he
  | cons fr rest ih =>
    intro e he
    simp only [decryptLoop] at he
    rcases List.mem_append.mp he with h | h
    · exact decryptOne_no_notice env pwh fr s e h
    · exact ih _ e h

theorem encryptLoop_count (env : BatchEnv) (pwh : PasswordAndHint)
    (l : List FileRef) (s : VaultState) :
    (encryptLoop env pwh l s).2.2.1 + (encryptLoop env pwh l s).2.2.2 = l.length := by
  induction l generalizing s with
  | nil => simp [encryptLoop]
  | cons fr rest ih =>
    simp only [encryptLoop]
    have h := ih ((encryptOne env pwh fr s).1)
    cases (encryptOne env pwh fr s).2.2 <;> simp <;> omega

theorem decryptLoop_count (env : BatchEnv) (pwh : PasswordAndHint)
    (l : List FileRef) (s : VaultState) :
    (decryptLoop env pwh l s).2.2.1 + (decryptLoop env pwh l s).2.2.2 = l.length := by
  induction l generalizing s with
  | nil => simp [decryptLoop]
  | cons fr rest ih =>
    simp only [decryptLoop]
    have h := ih ((decryptOne env pwh fr s).1)
    cases (decryptOne env pwh fr s).2.2 <;> simp <;> omega

theorem prompt_no_notice (level : Level) (lookup : String → PasswordAndHint)
    (promptOutcome : Option PasswordAndHint) (title : String) (isEncrypting : Bool)
    (defaultPath : String) :
    ∀ e ∈ (promptPasswordForFolder level lookup promptOutcome title isEncrypting
      defaultPath).2, isNoticeEvent e = false := by
  intro e he
  by_cases hl : level = Level.levelExternalFile <;>
    by_cases hp : (lookup defaultPath).password = "" <;>
      cases promptOutcome <;>
        simp [promptPasswordForFolder, hl, hp] at he <;>
          rcases he with rfl | rfl <;> rfl

/-- Claim C1: over a non-empty eligible set with a resolved password, every
per-file failure is caught inside the loop and counted, iteration covers
every file (ok + fail equals the number of eligible files), and the trace
carries exactly one notice, the summary "Folder <verb>: N ok, M failed". -/
theorem C1_batch_summary :
    (∀ (env : BatchEnv) (folder : Folder) (s : VaultState) (pwh : PasswordAndHint),
      getMarkdownFiles s.files folder ≠ [] →
      (promptPasswordForFolder env.level env.lookup env.promptOutcome
          ("Encrypt Folder \"" ++ folder.name ++ "\"") true folder.path).1 = some pwh →
      ∃ ok fail, ok + fail = (getMarkdownFiles s.files folder).length ∧
        (processEncryptFolder env folder s).2.filter isNoticeEvent =
          [Event.notice ("Folder encrypted: " ++ toString ok ++ " ok, " ++
            toString fail ++ " failed")]) ∧
    (∀ (env : BatchEnv) (folder : Folder) (s : VaultState) (pwh : PasswordAndHint),
      getEncryptedFiles s.files folder ≠ [] →
      (promptPasswordForFolder env.level env.lookup env.promptOutcome
          ("Decrypt Folder \"" ++ folder.name ++ "\"") false folder.path).1 = some pwh →
      ∃ ok fail, ok + fail = (getEncryptedFiles s.files folder).length ∧
        (processDecryptFolder env folder s).2.filter isNoticeEvent =
          [Event.notice ("Folder decrypted: " ++ toString ok ++ " ok, " ++
            toString fail ++ " failed")]) := by
  constructor
  · intro env folder s pwh hne hpw
    have hlen : ¬ ((getMarkdownFiles s.files folder).length = 0) := by
      intro h
      exact hne (List.length_eq_zero.mp h)
    refine ⟨(encryptLoop env pwh ((getMarkdownFiles s.files folder).map fileRefOf) s).2.2.1,
            (encryptLoop env pwh ((getMarkdownFiles s.files folder).map fileRefOf) s).2.2.2,
            ?_, ?_⟩
    · have h := encryptLoop_count env pwh ((getMarkdownFiles s.files folder).map fileRefOf) s
      simpa using h
    · simp only [processEncryptFolder, hlen, if_false, ite_false, hpw]
      rw [List.filter_append, List.filter_append]
      rw [List.filter_eq_nil_iff.mpr (by
        intro e he
        simp [prompt_no_notice env.level env.lookup env.promptOutcome _ true folder.path e he])]
      rw [List.filter_eq_nil_iff.mpr (by
        intro e he
        simp [encryptLoop_no_notice env pwh _ s e he])]
      rfl
  · intro env folder s pwh hne hpw
    have hlen : ¬ ((getEncryptedFiles s.files folder).length = 0) := by
      intro h
      exact hne (List.length_eq_zero.mp h)
    refine ⟨(decryptLoop env pwh ((getEncryptedFiles s.files folder).map fileRefOf) s).2.2.1,
            (decryptLoop env pwh ((getEncryptedFiles s.files folder).map fileRefOf) s).2.2.2,
            ?_, ?_⟩
    · have h := decryptLoop_count env pwh ((getEncryptedFiles s.files folder).map fileRefOf) s
      simpa using h
    · simp only [processDecryptFolder, hlen, if_false, ite_false, hpw]
      rw [List.filter_append, List.filter_append]
      rw [List.filter_eq_nil_iff.mpr (by
        intro e he
        simp [prompt_no_notice env.level env.lookup env.promptOutcome _ false folder.path e he])]
      rw [List.filter_eq_nil_iff.mpr (by
        intro e he
        simp [decryptLoop_no_notice env pwh _ s e he])]
      rfl

/-- Claim C8: in a decrypting batch a null decryption result (wrong
password or corrupt envelope) and a codec decode failure are both converted
into a caught per-file failure: the state is unchanged for that file (no
rename, no write), the fail counter is incremented, and the loop continues
over the remaining files. -/
theorem C8_decrypt_failure (env : BatchEnv) (pwh : PasswordAndHint) (fr : FileRef)
    (rest : List FileRef) (s : VaultState) (c : String)
    (hread : readFile s.files fr.path = some c)
    (hfail : env.decodeEnv c = none ∨
      ∃ envl, env.decodeEnv c = some envl ∧ env.decryptText envl pwh.password = none) :
    decryptOne env pwh fr s = (s, [Event.readFile fr.path], false) ∧
    decryptLoop env pwh (fr :: rest) s =
      ((decryptLoop env pwh rest s).1,
       Event.readFile fr.path :: (decryptLoop env pwh rest s).2.1,
       (decryptLoop env pwh rest s).2.2.1,
       (decryptLoop env pwh rest s).2.2.2 + 1) := by
  have h1 : decryptOne env pwh fr s = (s, [Event.readFile fr.path], false) := by
    rcases hfail with hd | ⟨envl, hd, hn⟩
    · simp [decryptOne, hread, hd]
    · simp [decryptOne, hread, hd, hn]
  refine ⟨h1, ?_⟩
  simp [decryptLoop, h1]

/-- Witness instance for C1: a concrete two-file encrypting batch whose
summary notice reports 2 ok, 0 failed. -/
theorem C1_batch_summary_witness :
    getMarkdownFiles sW.files folderW ≠ [] ∧
    (promptPasswordForFolder envW.level envW.lookup envW.promptOutcome
        ("Encrypt Folder \"" ++ folderW.name ++ "\"") true folderW.path).1 =
      some ⟨"pw", "h"⟩ ∧
    (∃ ok fail, ok + fail = (getMarkdownFiles sW.files folderW).length ∧
      (processEncryptFolder envW folderW sW).2.filter isNoticeEvent =
        [Event.notice ("Folder encrypted: " ++ toString ok ++ " ok, " ++
          toString fail ++ " failed")]) :=
  ⟨by decide, by decide,
   C1_batch_summary.1 envW folderW sW ⟨"pw", "h"⟩ (by decide) (by decide)⟩

/-- Witness instance for C2: cancelling the prompt over the concrete vault
leaves the state untouched and the trace free of effects. -/
theorem C2_cancel_aborts_witness :
    envCancelW.level ≠ Level.levelExternalFile ∧
    (envCancelW.lookup folderW.path).password = "" ∧
    envCancelW.promptOutcome = none ∧
    getMarkdownFiles sW.files folderW ≠ [] ∧
    ((processEncryptFolder envCancelW folderW sW).1 = sW ∧
      (processEncryptFolder envCancelW folderW sW).2.filter
        (fun e => isNoticeEvent e || isReadEvent e || isDetachEvent e ||
          isRenameEvent e || isModifyEvent e || isCachePutEvent e ||
          isReopenEvent e) = []) :=
  ⟨by decide, rfl, rfl, by decide,
   (C2_cancel_aborts envCancelW folderW sW (by decide) rfl rfl).1 (by decide)⟩

/-- Witness instance for C3: the three resolver paths at concrete inputs. -/
theorem C3_resolver_witness :
    (promptPasswordForFolder Level.levelExternalFile lookupPwW (some ⟨"q", ""⟩)
        "t" true "dir" = (some ⟨"pw", "h"⟩, [Event.cacheGet "dir"])) ∧
    (promptPasswordForFolder Level.levelNone lookupPwW (some ⟨"q", ""⟩)
        "t" true "dir" = (some ⟨"pw", "h"⟩, [Event.cacheGet "dir"])) ∧
    (promptPasswordForFolder Level.levelNone (fun _ => ⟨"", ""⟩) (some ⟨"q", ""⟩)
        "t" false "dir" =
      (some ⟨"q", ""⟩,
       [Event.cacheGet "dir", Event.promptOpened "t" false false ⟨"", ""⟩])) :=
  ⟨(C3_resolver Level.levelExternalFile lookupPwW (some ⟨"q", ""⟩) "t" true "dir").1 rfl,
   (C3_resolver Level.levelNone lookupPwW (some ⟨"q", ""⟩) "t" true "dir").2.1
     (by decide) (by decide),
   (C3_resolver Level.levelNone (fun _ => ⟨"", ""⟩) (some ⟨"q", ""⟩) "t" false "dir").2.2
     (by decide) rfl⟩

/-- Witness instance for C5: the ordering facts at a concrete successful
transform of an open file. -/
theorem C5_mutation_ordering_witness :
    firstBefore isDetachEvent isStorageMutation
      (closeUpdateRememberPasswordThenReopen envW sW "dir/b.md" "md" "mdenc" "CT"
        ⟨"pw", "h"⟩).2.1 ∧
    firstBefore isRenameEvent isModifyEvent
      (closeUpdateRememberPasswordThenReopen envW sW "dir/b.md" "md" "mdenc" "CT"
        ⟨"pw", "h"⟩).2.1 :=
  C5_mutation_ordering envW sW "dir/b.md" "md" "mdenc" "CT" ⟨"pw", "h"⟩

/-- Witness instance for C6: a concrete fully successful encryption leaves
the renamed file with the envelope content and the password cached under
the new path. -/
theorem C6_success_state_witness :
    ("dir/a.md" : String) = "dir/a" ++ "." ++ "md" ∧
    readFile sW.files "dir/a.md" = some "hello" ∧
    envW.encryptText "pw" "h" "hello" = some "ENChello" ∧
    ((encryptOne envW ⟨"pw", "h"⟩ ⟨"dir/a.md", "md"⟩ sW).2.2 = true ∧
     (⟨"dir/a" ++ "." ++ ENCRYPTED_FILE_EXTENSION_DEFAULT, ENCRYPTED_FILE_EXTENSION_DEFAULT,
         "ENChello"⟩ : VFile) ∈ (encryptOne envW ⟨"pw", "h"⟩ ⟨"dir/a.md", "md"⟩ sW).1.files ∧
     cacheLookup (encryptOne envW ⟨"pw", "h"⟩ ⟨"dir/a.md", "md"⟩ sW).1.cache
       ("dir/a" ++ "." ++ ENCRYPTED_FILE_EXTENSION_DEFAULT) = ⟨"pw", "h"⟩) :=
  ⟨by decide, rfl, rfl,
   C6_success_state.1 envW ⟨"pw", "h"⟩ ⟨"dir/a.md", "md"⟩ sW "dir/a" "hello" "ENChello"
     (by decide) rfl rfl rfl rfl⟩

/-- Witness instance for C7: a directory holding no eligible files yields
only the "nothing to do" notice. -/
theorem C7_empty_folder_witness :
    getMarkdownFiles sW.files ⟨"empty", "empty"⟩ = [] ∧
    processEncryptFolder envW ⟨"empty", "empty"⟩ sW =
      (sW, [Event.notice "No markdown files to encrypt in this folder."]) :=
  ⟨by decide, (C7_empty_folder envW ⟨"empty", "empty"⟩ sW).1 (by decide)⟩

/-- Witness instance for C8: a corrupt envelope in the concrete vault is a
caught per-file failure that mutates nothing. -/
theorem C8_decrypt_failure_witness :
    readFile sDecW.files "dir/bad.mdenc" = some "junk" ∧
    envW.decodeEnv "junk" = none ∧
    decryptOne envW ⟨"pw", "h"⟩ ⟨"dir/bad.mdenc", "mdenc"⟩ sDecW =
      (sDecW, [Event.readFile "dir/bad.mdenc"], false) :=
  ⟨by decide, by decide,
   (C8_decrypt_failure envW ⟨"pw", "h"⟩ ⟨"dir/bad.mdenc", "mdenc"⟩ [] sDecW "junk"
     (by decide) (Or.inl (by decide))).1⟩

/-- Witness instance for C10: a failing content write after a successful
rename at a concrete input. -/
theorem C10_write_failure_witness :
    envModFailW.renameFails "dir/b.md" = false ∧
    envModFailW.modifyFails (getFilePathWithNewExtension "dir/b.md" "md" "mdenc") = true ∧
    ((closeUpdateRememberPasswordThenReopen envModFailW sW "dir/b.md" "md" "mdenc" "CT"
        ⟨"pw", "h"⟩).2.2 = false ∧
     (closeUpdateRememberPasswordThenReopen envModFailW sW "dir/b.md" "md" "mdenc" "CT"
        ⟨"pw", "h"⟩).1.cache = sW.cache ∧
     (∀ p, Event.cachePut p ∉
       (closeUpdateRememberPasswordThenReopen envModFailW sW "dir/b.md" "md" "mdenc" "CT"
         ⟨"pw", "h"⟩).2.1) ∧
     (closeUpdateRememberPasswordThenReopen envModFailW sW "dir/b.md" "md" "mdenc" "CT"
        ⟨"pw", "h"⟩).1.files =
       sW.files.map (fun f =>
         if f.path = "dir/b.md" then
           { f with path := getFilePathWithNewExtension "dir/b.md" "md" "mdenc",
                    extension := "mdenc" }
         else f) ∧
     (sW.openViews.contains "dir/b.md" = true →
       (closeUpdateRememberPasswordThenReopen envModFailW sW "dir/b.md" "md" "mdenc" "CT"
          ⟨"pw", "h"⟩).2.1.getLast? =
         some (Event.reopenFile (getFilePathWithNewExtension "dir/b.md" "md" "mdenc")))) :=
  ⟨rfl, by decide,
   C10_write_failure envModFailW sW "dir/b.md" "md" "mdenc" "CT" ⟨"pw", "h"⟩ rfl (by decide)⟩

end FolderEncrypt
